import Mathlib

/-!
Verification of the two lint passes of this repository against their
natural-language specification: the collapsible-conditional pass
(src/clippy_lints/src/collapsible_if.rs) and the
constructor-without-default pass (src/clippy_lints/src/new_without_default.rs).

The syntax tree, the lint drivers and the suggestion synthesis are embedded
shallowly: each Rust function becomes a Lean function of the same name,
operating on an explicit tree datatype; the external oracles of the spec
(span/hygiene, type/trait resolution, source-text access) become fields of
the embedded nodes or explicit function parameters, as noted at each
definition.
-/

/-- A source location. The span/hygiene oracle of the spec is embedded as
fields: `ctxt` is the macro-expansion context tag (`span.ctxt()`),
`inMacro` records what `in_macro` / `in_external_macro` report for this
location, and `text` is what the source-access oracle `sourceTextOf`
returns for the span (used verbatim by `snippet_block`). -/
structure Span where
  ctxt : Nat
  inMacro : Bool
  text : String
deriving DecidableEq, Repr

/-- Suggestion applicability (rustc_errors::Applicability, the cases used). -/
inductive Applicability where
  | MachineApplicable
  | MaybeIncorrect
  | Unspecified
deriving DecidableEq, Repr

/-- Where a suggestion's replacement text goes. -/
inductive SuggTarget where
  /-- substitute the replacement text for this span -/
  | replaceSpan (sp : Span)
  /-- insert the text immediately before the item at this span -/
  | insertBefore (sp : Span)
  /-- insert the text immediately after the item at this span -/
  | insertAfter (sp : Span)
deriving DecidableEq, Repr

/-- A synthesized code rewrite attached to a finding. -/
structure Suggestion where
  target : SuggTarget
  text : String
  appl : Applicability
deriving DecidableEq, Repr

/-- One emitted lint finding: (lint name, primary span, message, optional
suggestion), as handed to the finding sink. -/
structure Finding where
  lint : String
  span : Span
  msg : String
  sugg : Option Suggestion
deriving DecidableEq, Repr

/-- Binary operators of the surface syntax, as far as condition
combination needs to distinguish them. -/
inductive BinOp where
  | lor
  | land
  | other
deriving DecidableEq, Repr

mutual
/-- ast::Expr - an expression node: a span plus a kind. -/
inductive Expr : Type where
  | mk : Span → ExprKind → Expr

/-- ast::ExprKind, restricted to the kinds the two passes inspect.
`ifE check then els` is ExprKind::If; `ifLet scrut then els` is
ExprKind::IfLet (the pattern plays no role in the pass and is omitted);
`block` is ExprKind::Block; `binary` is ExprKind::Binary; `leaf` stands
for every other expression kind (calls, paths, literals), whose source
text lives in its span. -/
inductive ExprKind : Type where
  | ifE : Expr → Block → Option Expr → ExprKind
  | ifLet : Expr → Block → Option Expr → ExprKind
  | block : Block → ExprKind
  | binary : BinOp → Expr → Expr → ExprKind
  | leaf : ExprKind

/-- ast::Block: a statement list plus the block's own span. -/
inductive Block : Type where
  | mk : List Stmt → Span → Block

/-- ast::Stmt, restricted to the kinds `expr_block` distinguishes:
StmtKind::Expr, StmtKind::Semi, and everything else (locals, items). -/
inductive Stmt : Type where
  | expr : Expr → Stmt
  | semi : Expr → Stmt
  | other : Stmt
end

def Expr.span : Expr → Span
  | .mk s _ => s

def Expr.node : Expr → ExprKind
  | .mk _ k => k

def Block.stmts : Block → List Stmt
  | .mk l _ => l

def Block.span : Block → Span
  | .mk _ s => s

/-- Modelled from the spec: the span/hygiene oracle query
isInMacroExpansion(location), read off the embedded span. -/
def in_macro (sp : Span) : Bool := sp.inMacro

/-- Modelled from the spec: sourceTextOf(span) with block re-indentation -
the replacement text is the verbatim source slice of the span. -/
def snippet_block (sp : Span) : String := sp.text

/-- If the block contains only one expression, return it
(clippy src: expr_block; accepts StmtKind::Expr and StmtKind::Semi). -/
def expr_block (block : Block) : Option Expr :=
  match block.stmts with
  | [stmt] =>
    match stmt with
    | .expr e => some e
    | .semi e => some e
    | .other => none
  | _ => none

/-- Precedence class of a condition expression, for the condition
combination step: only the relative order with logical AND matters. -/
def expr_prec (e : Expr) : Nat :=
  match e.node with
  | .binary .lor _ _ => 1
  | .binary .land _ _ => 2
  | .binary .other _ _ => 3
  | _ => 4

/-- Precedence of logical AND. -/
def and_prec : Nat := 2

/-- Modelled from the spec: one side of the condition combination
(Sugg::ast plus the parenthesization of Sugg::and, which live outside
this excerpt): a side whose own precedence is weaker than logical AND is
parenthesized; the text of a side is its verbatim source slice. -/
def sugg_side (e : Expr) : String :=
  if expr_prec e < and_prec then "(" ++ e.span.text ++ ")" else e.span.text

/-- Modelled from the spec: the combined condition `lhs.and(&rhs)` of the
suggestion synthesizer. -/
def sugg_and (l r : Expr) : String :=
  sugg_side l ++ " && " ++ sugg_side r

/-- clippy src: check_collapsible_maybe_if_let - sub-case (a),
collapsible `else ... ` block. `els` is the else-branch expression of the
outer If/IfLet. The external helper span_lint_and_sugg replaces the lint
span (the else-block span) by the suggestion text. -/
def check_collapsible_maybe_if_let (els : Expr) : List Finding :=
  match els.node with
  | .block b =>
    match expr_block b with
    | some inner =>
      if in_macro inner.span then []
      else
        match inner.node with
        | .ifE _ _ _ =>
          [⟨"collapsible_if", b.span,
            "this `else \x7b if .. \x7d` block can be collapsed",
            some ⟨.replaceSpan b.span, snippet_block inner.span, .MachineApplicable⟩⟩]
        | .ifLet _ _ _ =>
          [⟨"collapsible_if", b.span,
            "this `else \x7b if .. \x7d` block can be collapsed",
            some ⟨.replaceSpan b.span, snippet_block inner.span, .MachineApplicable⟩⟩]
        | _ => []
    | none => []
  | _ => []

/-- clippy src: check_collapsible_no_if_let - sub-case (b), nested
`if` without else. `expr` is the outer if-expression, `check` its
condition, `then` its then-block. -/
def check_collapsible_no_if_let (expr check : Expr) (then_ : Block) : List Finding :=
  match expr_block then_ with
  | some inner =>
    match inner.node with
    | .ifE check_inner content none =>
      if expr.span.ctxt != inner.span.ctxt then []
      else
        [⟨"collapsible_if", expr.span,
          "this if statement can be collapsed",
          some ⟨.replaceSpan expr.span,
                "if " ++ sugg_and check check_inner ++ " " ++ snippet_block content.span,
                .MachineApplicable⟩⟩]
    | _ => []
  | none => []

/-- clippy src: check_if - dispatch on the node kind. -/
def check_if (expr : Expr) : List Finding :=
  match expr.node with
  | .ifE check then_ els =>
    match els with
    | some e => check_collapsible_maybe_if_let e
    | none => check_collapsible_no_if_let expr check then_
  | .ifLet _ _ (some els) => check_collapsible_maybe_if_let els
  | _ => []

/-- clippy src: CollapsibleIf::check_expr - the per-expression driver
hook: nodes inside macro-expanded code are excluded entirely. -/
def check_expr (expr : Expr) : List Finding :=
  if in_macro expr.span then [] else check_if expr

mutual
/-- The ambient traversal framework: visit every expression in document
order (pre-order) and invoke the driver hook `check_expr` at each. -/
def walkExpr : Expr → List Finding
  | .mk sp k => check_expr (.mk sp k) ++ walkKind k

def walkKind : ExprKind → List Finding
  | .ifE c t els =>
    walkExpr c ++ walkBlock t ++
      (match els with
       | some e => walkExpr e
       | none => [])
  | .ifLet s t els =>
    walkExpr s ++ walkBlock t ++
      (match els with
       | some e => walkExpr e
       | none => [])
  | .block b => walkBlock b
  | .binary _ l r => walkExpr l ++ walkExpr r
  | .leaf => []

def walkBlock : Block → List Finding
  | .mk stmts _ => walkStmts stmts

def walkStmts : List Stmt → List Finding
  | [] => []
  | s :: rest => walkStmt s ++ walkStmts rest

def walkStmt : Stmt → List Finding
  | .expr e => walkExpr e
  | .semi e => walkExpr e
  | .other => []
end

/-! ## The constructor-without-default pass (new_without_default.rs) -/

/-- A resolved type (rustc ty::Ty), as far as the pass inspects it:
`adt name isStruct fields defSpan` is ty::Adt, carrying the ADT's name
(its Display rendering), whether `adt_def.is_struct()`, its structural
field types already substituted (`field.ty(tcx, substs)` for each field,
in declared order), and `tcx.def_span(adt_def.did)`; `prim name` is every
non-ADT type. -/
inductive Ty : Type where
  | adt : String → Bool → List Ty → Span → Ty
  | prim : String → Ty

/-- The Display rendering of a type (what `format!` interpolates). -/
def Ty.display : Ty → String
  | .adt n _ _ _ => n
  | .prim n => n

mutual
/-- Structural type equality, the embedding of the `same_tys` oracle
(typesEqual of the spec; the helper lives outside this excerpt). -/
def Ty.beq : Ty → Ty → Bool
  | .prim a, .prim b => a == b
  | .adt n1 s1 f1 sp1, .adt n2 s2 f2 sp2 =>
    n1 == n2 && s1 == s2 && Ty.beqFields f1 f2 && sp1 == sp2
  | _, _ => false

def Ty.beqFields : List Ty → List Ty → Bool
  | [], [] => true
  | x :: xs, y :: ys => Ty.beq x y && Ty.beqFields xs ys
  | _, _ => false
end

/-- Modelled from the spec: typesEqual - structural/nominal type
equality (the `same_tys` helper is outside this excerpt). -/
def same_tys (a b : Ty) : Bool := Ty.beq a b

/-- The type/trait resolution oracle, injected explicitly:
`defaultTraitId` is what `get_trait_def_id(cx, DEFAULT_TRAIT)` resolves
to, and `implements ty id` is what `implements_trait(cx, ty, id, [])`
reports. -/
structure Ctx where
  defaultTraitId : Option Nat
  implements : Ty → Nat → Bool

/-- Modelled from the spec: resolveTraitId for the default-construction
trait (the `get_trait_def_id` helper is outside this excerpt). -/
def get_trait_def_id (cx : Ctx) : Option Nat := cx.defaultTraitId

/-- Modelled from the spec: implementsTrait(type, traitId, []) (the
`implements_trait` helper is outside this excerpt). -/
def implements_trait (cx : Ctx) (ty : Ty) (traitId : Nat) : Bool :=
  cx.implements ty traitId

/-- Modelled from the spec: isInMacroExpansion for the late pass
(`in_external_macro`), read off the embedded span. -/
def in_external_macro (sp : Span) : Bool := sp.inMacro

/-- clippy src: the for-loop of can_derive_default over
`adt_def.all_fields()`: return None on the first field whose type does
not implement the trait. -/
def fields_derivable (cx : Ctx) (traitId : Nat) : List Ty → Bool
  | [] => true
  | f :: rest =>
    if !implements_trait cx f traitId then false
    else fields_derivable cx traitId rest

/-- clippy src: can_derive_default - Some(def_span) when the type is a
struct ADT all of whose field types implement the trait, None otherwise. -/
def can_derive_default (ty : Ty) (cx : Ctx) (default_trait_id : Nat) : Option Span :=
  match ty with
  | .adt _ true fields defSpan =>
    if fields_derivable cx default_trait_id fields then some defSpan else none
  | _ => none

/-- clippy src: create_new_without_default_suggest_msg - the manual
trait-implementation text. -/
def create_new_without_default_suggest_msg (ty : Ty) : String :=
  "impl Default for " ++ ty.display ++ " \x7b\n    fn default() -> Self \x7b\n        Self::new()\n    \x7d\n\x7d"

/-- An associated item of an inherent impl, as far as check_item inspects
it. `method hasSelf span name isConst hasTypeParam numInputs retTy
reachable` carries: AssociatedItemKind::Method's has_self flag; the
resolved impl item's span; its name; whether `sig.header.constness ==
Const`; whether any generic parameter is a type parameter; the length of
`sig.decl.inputs`; `return_ty(cx, id)`; and
`cx.access_levels.is_reachable(id)`. `otherAssoc` is every non-method
associated item (consts, types). -/
inductive AssocItem : Type where
  | method : Bool → Span → String → Bool → Bool → Nat → Ty → Bool → AssocItem
  | otherAssoc : AssocItem

/-- A crate item, as far as check_item inspects it: `implI ofTrait selfTy
span items` is hir::ItemKind::Impl, carrying the trait reference (None
for an inherent impl), the impl's self type as the type oracle resolves
it (`tcx.type_of` of the parent of the methods), the item's span and its
associated items; `otherItem` is every other item kind. -/
inductive Item : Type where
  | implI : Option Unit → Ty → Span → List AssocItem → Item
  | otherItem : Item

/-- clippy src: the body of check_item's if_chain for one accepted
candidate `fn new()` (empty inputs, named "new", reachable): require the
return type to equal the enclosing type, resolve the Default trait,
require it not implemented, then emit the derive suggestion when
derivable and the manual-impl suggestion otherwise. The external
suggestion helpers are modelled from the spec: suggest_item_with_attr
inserts the attribute immediately before the type definition span, and
suggest_prepend_item places the manual impl text relative to the inherent
impl block (the spec: inserted immediately after it); both with
applicability MaybeIncorrect. -/
def new_candidate_findings (cx : Ctx) (selfTy : Ty) (itemSpan implItemSpan : Span)
    (retTy : Ty) : List Finding :=
  if same_tys selfTy retTy then
    match get_trait_def_id cx with
    | some default_trait_id =>
      if !implements_trait cx selfTy default_trait_id then
        match can_derive_default selfTy cx default_trait_id with
        | some sp =>
          [⟨"new_without_default_derive", implItemSpan,
            "you should consider deriving a `Default` implementation for `"
              ++ selfTy.display ++ "`",
            some ⟨.insertBefore sp, "#[derive(Default)]", .MaybeIncorrect⟩⟩]
        | none =>
          [⟨"new_without_default", implItemSpan,
            "you should consider adding a `Default` implementation for `"
              ++ selfTy.display ++ "`",
            some ⟨.insertAfter itemSpan,
                  create_new_without_default_suggest_msg selfTy, .MaybeIncorrect⟩⟩]
      else []
    | none => []
  else []

/-- clippy src: the `for assoc_item in items` loop of check_item. A
non-method item, a method with a self parameter, and a method failing the
`inputs.is_empty() && name == "new" && is_reachable` test fall through to
the next iteration; the macro, constness and generic-type-parameter
checks execute `return`, which aborts the whole check_item call (not just
the current candidate), so the remaining items produce nothing. -/
def process_assoc_items (cx : Ctx) (selfTy : Ty) (itemSpan : Span) :
    List AssocItem → List Finding
  | [] => []
  | .otherAssoc :: rest => process_assoc_items cx selfTy itemSpan rest
  | .method hasSelf sp name isConst hasTypeParam numInputs retTy reachable :: rest =>
    if hasSelf then process_assoc_items cx selfTy itemSpan rest
    else if in_external_macro sp then []
    else if isConst then []
    else if hasTypeParam then []
    else if numInputs == 0 && name == "new" && reachable then
      new_candidate_findings cx selfTy itemSpan sp retTy
        ++ process_assoc_items cx selfTy itemSpan rest
    else process_assoc_items cx selfTy itemSpan rest

/-- clippy src: NewWithoutDefault::check_item - only inherent impls
(trait reference None) are inspected. -/
def check_item (cx : Ctx) : Item → List Finding
  | .implI none selfTy itemSpan items => process_assoc_items cx selfTy itemSpan items
  | _ => []

/-! ## Spec-side reference definitions and concrete example inputs -/

/-- Whether an expression node is an If or IfLet. -/
def isIfOrIfLet (e : Expr) : Bool :=
  match e.node with
  | .ifE _ _ _ => true
  | .ifLet _ _ _ => true
  | _ => false

/-- Reference definition following the spec's words for sub-case (a):
the node's else-branch is a Block containing exactly one statement that
is an If or IfLet expression whose span is not inside macro-expanded
code. No outer/inner expansion-context equality is required. Written
from the spec, to be compared with check_collapsible_maybe_if_let. -/
def subcase_a_matches (els : Expr) : Bool :=
  match els.node with
  | .block (.mk [st] _) =>
    match st with
    | .expr inner => isIfOrIfLet inner && ! in_macro inner.span
    | .semi inner => isIfOrIfLet inner && ! in_macro inner.span
    | .other => false
  | _ => false

/-- Example input for claim C3: the program fragment
`if x \x7b if y \x7b z(); \x7d \x7d`, all spans in the root expansion
context and outside macros. -/
def exX : Expr := .mk ⟨0, false, "x"⟩ .leaf

def exY : Expr := .mk ⟨0, false, "y"⟩ .leaf

def exZ : Expr := .mk ⟨0, false, "z();"⟩ .leaf

def exInnerThen : Block := .mk [.semi exZ] ⟨0, false, "\x7b z(); \x7d"⟩

def exInnerIf : Expr := .mk ⟨0, false, "if y \x7b z(); \x7d"⟩ (.ifE exY exInnerThen none)

def exOuterThen : Block := .mk [.expr exInnerIf] ⟨0, false, "\x7b if y \x7b z(); \x7d \x7d"⟩

def exOuterIf : Expr :=
  .mk ⟨0, false, "if x \x7b if y \x7b z(); \x7d \x7d"⟩ (.ifE exX exOuterThen none)

/-- Example input for claim C4: outer condition `a || b`, inner
condition `c`. -/
def exA : Expr := .mk ⟨0, false, "a"⟩ .leaf

def exB : Expr := .mk ⟨0, false, "b"⟩ .leaf

def exAorB : Expr := .mk ⟨0, false, "a || b"⟩ (.binary .lor exA exB)

def exC : Expr := .mk ⟨0, false, "c"⟩ .leaf

/-- Example input for claim C8: `if a \x7b\x7d else \x7b if b \x7b\x7d
else \x7b if c \x7b\x7d \x7d \x7d`. -/
def exEmptyBlock : Block := .mk [] ⟨0, false, "\x7b\x7d"⟩

def exIfC : Expr := .mk ⟨0, false, "if c \x7b\x7d"⟩ (.ifE exC exEmptyBlock none)

def exElseBlock2 : Block := .mk [.expr exIfC] ⟨0, false, "\x7b if c \x7b\x7d \x7d"⟩

def exElseExpr2 : Expr := .mk ⟨0, false, "\x7b if c \x7b\x7d \x7d"⟩ (.block exElseBlock2)

def exIfB : Expr :=
  .mk ⟨0, false, "if b \x7b\x7d else \x7b if c \x7b\x7d \x7d"⟩
    (.ifE exB exEmptyBlock (some exElseExpr2))

def exElseBlock1 : Block :=
  .mk [.expr exIfB] ⟨0, false, "\x7b if b \x7b\x7d else \x7b if c \x7b\x7d \x7d \x7d"⟩

def exElseExpr1 : Expr :=
  .mk ⟨0, false, "\x7b if b \x7b\x7d else \x7b if c \x7b\x7d \x7d \x7d"⟩ (.block exElseBlock1)

def exIfA : Expr :=
  .mk ⟨0, false, "if a \x7b\x7d else ..."⟩ (.ifE exA exEmptyBlock (some exElseExpr1))

/-- Example inputs for claim C10: `if x \x7b if y \x7b z(); \x7d; \x7d`
(semicolon after the inner if) and
`if x \x7b a(); \x7d else \x7b if y \x7b b(); \x7d; \x7d`. -/
def exOuterThenSemi : Block :=
  .mk [.semi exInnerIf] ⟨0, false, "\x7b if y \x7b z(); \x7d; \x7d"⟩

def exOuterIfSemi : Expr :=
  .mk ⟨0, false, "if x \x7b if y \x7b z(); \x7d; \x7d"⟩ (.ifE exX exOuterThenSemi none)

def exInnerIfB : Expr :=
  .mk ⟨0, false, "if y \x7b b(); \x7d"⟩
    (.ifE exY (.mk [.semi (.mk ⟨0, false, "b();"⟩ .leaf)] ⟨0, false, "\x7b b(); \x7d"⟩) none)

def exElseSemiBlock : Block := .mk [.semi exInnerIfB] ⟨0, false, "\x7b if y \x7b b(); \x7d; \x7d"⟩

def exElseSemiExpr : Expr := .mk ⟨0, false, "\x7b if y \x7b b(); \x7d; \x7d"⟩ (.block exElseSemiBlock)

def exIfWithElseSemi : Expr :=
  .mk ⟨0, false, "if x \x7b a(); \x7d else \x7b if y \x7b b(); \x7d; \x7d"⟩
    (.ifE exX (.mk [.semi (.mk ⟨0, false, "a();"⟩ .leaf)] ⟨0, false, "\x7b a(); \x7d"⟩)
      (some exElseSemiExpr))

/-- Example inputs for claims about the constructor pass: a zero-field
struct `Foo`, a struct `Bar(NonDefaultType)`, and an oracle under which
no type implements Default. -/
def tyFoo : Ty := .adt "Foo" true [] ⟨0, false, "struct Foo;"⟩

def tyNonDefault : Ty := .prim "NonDefaultType"

def tyBar : Ty := .adt "Bar" true [tyNonDefault] ⟨0, false, "struct Bar(NonDefaultType);"⟩

def exCx : Ctx := ⟨some 7, fun _ _ => false⟩

def exImplSpan : Span := ⟨0, false, "impl block"⟩

def exMethodSpan : Span := ⟨0, false, "fn new() -> Self ..."⟩

/-- A `const fn helper() -> Foo` associated method (no self parameter). -/
def exConstMethod : AssocItem :=
  .method false ⟨0, false, "const fn helper"⟩ "helper" true false 0 tyFoo true

/-- A reachable, zero-parameter, non-const, non-generic `fn new() -> Foo`. -/
def exNewMethod : AssocItem := .method false exMethodSpan "new" false false 0 tyFoo true

/-- The same valid `new` candidate on the non-derivable type `Bar`. -/
def exNewMethodBar : AssocItem := .method false exMethodSpan "new" false false 0 tyBar true

/-- Example input for claim C7: the same nested-if shape as exOuterIf,
but with the inner if in a different macro-expansion context (ctxt 1)
than the outer if (ctxt 0). -/
def exInnerIfCtxt1 : Expr := .mk ⟨1, false, "if y \x7b z(); \x7d"⟩ (.ifE exY exInnerThen none)

def exOuterThenCtxt : Block :=
  .mk [.expr exInnerIfCtxt1] ⟨0, false, "\x7b if y \x7b z(); \x7d \x7d"⟩

def exOuterIfCtxt : Expr :=
  .mk ⟨0, false, "if x \x7b if y \x7b z(); \x7d \x7d"⟩ (.ifE exX exOuterThenCtxt none)

/-! ## Helper lemmas -/

/-- fields_derivable is the conjunction over all fields. -/
theorem fields_derivable_eq_all (cx : Ctx) (tid : Nat) (fs : List Ty) :
    fields_derivable cx tid fs = fs.all (fun f => implements_trait cx f tid) := by
  induction fs with
  | nil => rfl
  | cons f rest ih =>
    simp only [fields_derivable, List.all_cons, ih]
    by_cases h : implements_trait cx f tid <;> simp [h]

/-! ## Claim theorems -/

/-- C3: every outer If with no else-branch, outside macro-expanded code,
whose then-block contains exactly one statement that is an inner If with
no else-branch in the same expansion context, yields exactly one finding
whose suggestion is `if` followed by the AND-combined conditions and the
inner then-block text, with applicability MachineApplicable. -/
theorem collapsible_nested_if_one_finding
    (spO spI bsp : Span) (check ci : Expr) (content : Block)
    (hmac : spO.inMacro = false) (hctx : spO.ctxt = spI.ctxt) :
    check_expr (.mk spO (.ifE check (.mk [.expr (.mk spI (.ifE ci content none))] bsp) none)) =
      [⟨"collapsible_if", spO, "this if statement can be collapsed",
        some ⟨.replaceSpan spO,
              "if " ++ sugg_and check ci ++ " " ++ snippet_block content.span,
              .MachineApplicable⟩⟩] := by
  simp [check_expr, in_macro, Expr.span, check_if, Expr.node, check_collapsible_no_if_let,
        expr_block, Block.stmts, hmac, hctx]

/-- Witness for C3: the input `if x \x7b if y \x7b z(); \x7d \x7d`
produces exactly one finding whose suggestion is
`if x && y \x7b z(); \x7d`. -/
theorem collapsible_nested_if_one_finding_witness :
    check_expr exOuterIf =
      [⟨"collapsible_if", ⟨0, false, "if x \x7b if y \x7b z(); \x7d \x7d"⟩,
        "this if statement can be collapsed",
        some ⟨.replaceSpan ⟨0, false, "if x \x7b if y \x7b z(); \x7d \x7d"⟩,
              "if x && y \x7b z(); \x7d", .MachineApplicable⟩⟩] := by
  have h := collapsible_nested_if_one_finding
    ⟨0, false, "if x \x7b if y \x7b z(); \x7d \x7d"⟩
    ⟨0, false, "if y \x7b z(); \x7d"⟩
    ⟨0, false, "\x7b if y \x7b z(); \x7d \x7d"⟩
    exX exY exInnerThen rfl rfl
  exact h.trans (by decide)

/-- C4: in the combined condition, a side whose top-level operator binds
weaker than logical AND is parenthesized and the other side, binding at
least as tightly, is not. -/
theorem sugg_and_parenthesizes_weaker_side (l r : Expr)
    (hl : expr_prec l < and_prec) (hr : ¬ expr_prec r < and_prec) :
    sugg_and l r = "(" ++ l.span.text ++ ")" ++ " && " ++ r.span.text := by
  simp [sugg_and, sugg_side, hl, hr]

/-- Witness for C4: for outer condition `a || b` and inner condition
`c`, the synthesized condition is exactly `(a || b) && c`. -/
theorem sugg_and_parenthesizes_weaker_side_witness :
    sugg_and exAorB exC = "(a || b) && c" := by
  have h := sugg_and_parenthesizes_weaker_side exAorB exC (by decide) (by decide)
  exact h.trans (by decide)

/-- C5: sub-case (a) fires exactly when the else-branch is a Block whose
single statement is an If or IfLet outside macro-expanded code (no
outer/inner expansion-context equality is checked), and on a match the
single finding replaces the whole else-block span by the source text of
the inner if-expression. -/
theorem collapsible_else_block_characterization (els : Expr) :
    (check_collapsible_maybe_if_let els ≠ [] ↔ subcase_a_matches els = true) ∧
    (∀ b inner, els.node = .block b → expr_block b = some inner →
      in_macro inner.span = false → isIfOrIfLet inner = true →
      check_collapsible_maybe_if_let els =
        [⟨"collapsible_if", b.span,
          "this `else \x7b if .. \x7d` block can be collapsed",
          some ⟨.replaceSpan b.span, snippet_block inner.span, .MachineApplicable⟩⟩]) := by
  obtain ⟨sp, k⟩ := els
  constructor
  · cases k with
    | block b =>
      obtain ⟨stmts, bsp⟩ := b
      match stmts with
      | [] =>
        simp [check_collapsible_maybe_if_let, subcase_a_matches, expr_block,
              Expr.node, Block.stmts]
      | [st] =>
        cases st with
        | expr inner =>
          obtain ⟨isp, ik⟩ := inner
          cases hm : isp.inMacro <;> cases ik <;>
            simp [check_collapsible_maybe_if_let, subcase_a_matches, expr_block,
                  isIfOrIfLet, in_macro, Expr.node, Expr.span, Block.stmts, hm]
        | semi inner =>
          obtain ⟨isp, ik⟩ := inner
          cases hm : isp.inMacro <;> cases ik <;>
            simp [check_collapsible_maybe_if_let, subcase_a_matches, expr_block,
                  isIfOrIfLet, in_macro, Expr.node, Expr.span, Block.stmts, hm]
        | other =>
          simp [check_collapsible_maybe_if_let, subcase_a_matches, expr_block,
                Expr.node, Block.stmts]
      | st1 :: st2 :: rest =>
        simp [check_collapsible_maybe_if_let, subcase_a_matches, expr_block,
              Expr.node, Block.stmts]
    | ifE c t e =>
      simp [check_collapsible_maybe_if_let, subcase_a_matches, Expr.node]
    | ifLet s t e =>
      simp [check_collapsible_maybe_if_let, subcase_a_matches, Expr.node]
    | binary op l r =>
      simp [check_collapsible_maybe_if_let, subcase_a_matches, Expr.node]
    | leaf =>
      simp [check_collapsible_maybe_if_let, subcase_a_matches, Expr.node]
  · intro b inner hnode heb hm hif
    simp only [Expr.node] at hnode
    subst hnode
    obtain ⟨isp, ik⟩ := inner
    simp only [Expr.span] at hm
    cases ik <;>
      simp_all [check_collapsible_maybe_if_let, isIfOrIfLet, in_macro,
                Expr.node, Expr.span]

/-- Witness for C5: the else-branch of the outer if of the C8 chain
matches sub-case (a), and the emitted finding replaces the else-block
span with the source text of the inner if-expression. -/
theorem collapsible_else_block_characterization_witness :
    subcase_a_matches exElseExpr1 = true ∧
    check_collapsible_maybe_if_let exElseExpr1 =
      [⟨"collapsible_if",
        ⟨0, false, "\x7b if b \x7b\x7d else \x7b if c \x7b\x7d \x7d \x7d"⟩,
        "this `else \x7b if .. \x7d` block can be collapsed",
        some ⟨.replaceSpan ⟨0, false, "\x7b if b \x7b\x7d else \x7b if c \x7b\x7d \x7d \x7d"⟩,
              "if b \x7b\x7d else \x7b if c \x7b\x7d \x7d", .MachineApplicable⟩⟩] := by
  have h := (collapsible_else_block_characterization exElseExpr1).2 exElseBlock1 exIfB
    rfl rfl rfl rfl
  exact ⟨by decide, h.trans (by decide)⟩

/-- C6: can_derive_default returns the span of the type's own definition
exactly when the type is a plain struct all of whose field types
implement the default-construction trait (vacuously for a zero-field
struct); every non-struct type and every struct with a failing field is
not derivable. -/
theorem can_derive_default_characterization (cx : Ctx) (tid : Nat) (ty : Ty) (sp : Span) :
    can_derive_default ty cx tid = some sp ↔
      ∃ n fields, ty = Ty.adt n true fields sp ∧
        ∀ f ∈ fields, implements_trait cx f tid = true := by
  cases ty with
  | prim n => simp [can_derive_default]
  | adt n isStruct fields dsp =>
    cases isStruct with
    | false => simp [can_derive_default]
    | true =>
      simp only [can_derive_default, fields_derivable_eq_all]
      constructor
      · intro heq
        by_cases h : fields.all (fun f => implements_trait cx f tid) = true
        · rw [if_pos h] at heq
          obtain rfl : dsp = sp := Option.some.inj heq
          exact ⟨n, fields, rfl, fun f hf => List.all_eq_true.mp h f hf⟩
        · rw [if_neg h] at heq
          exact absurd heq (by simp)
      · rintro ⟨n2, fields2, heq, hall⟩
        rw [Ty.adt.injEq] at heq
        obtain ⟨-, -, rfl, rfl⟩ := heq
        rw [if_pos (List.all_eq_true.mpr fun f hf => hall f hf)]

/-- Witness for C6: the zero-field struct Foo is derivable, carrying its
own definition span, under an oracle implementing Default for no type. -/
theorem can_derive_default_characterization_witness :
    can_derive_default tyFoo exCx 7 = some ⟨0, false, "struct Foo;"⟩ := by
  exact (can_derive_default_characterization exCx 7 tyFoo ⟨0, false, "struct Foo;"⟩).mpr
    ⟨"Foo", [], rfl, by simp⟩

/-- C7: when the tree shape satisfies the nested-if sub-case but the
outer node's expansion context differs from the inner node's, no finding
is emitted and no suggestion is synthesized. -/
theorem collapsible_ctxt_mismatch_skips (expr check : Expr) (then_ : Block)
    (inner ci : Expr) (content : Block)
    (hblk : expr_block then_ = some inner) (hnode : inner.node = .ifE ci content none)
    (hctx : expr.span.ctxt ≠ inner.span.ctxt) :
    check_collapsible_no_if_let expr check then_ = [] := by
  simp [check_collapsible_no_if_let, hblk, hnode, hctx]

/-- Witness for C7: the nested-if shape with outer context 0 and inner
context 1 produces no finding. -/
theorem collapsible_ctxt_mismatch_skips_witness :
    check_collapsible_no_if_let exOuterIfCtxt exX exOuterThenCtxt = [] := by
  exact collapsible_ctxt_mismatch_skips exOuterIfCtxt exX exOuterThenCtxt
    exInnerIfCtxt1 exY exInnerThen rfl rfl (by decide)

/-- C8: a full document-order pass over
`if a \x7b\x7d else \x7b if b \x7b\x7d else \x7b if c \x7b\x7d \x7d \x7d`
emits exactly two findings, one per collapsible else level: the outer
else-block (replaced by the `if b ...` text) and the inner else-block
(replaced by the `if c ...` text). -/
theorem else_chain_two_findings :
    walkExpr exIfA =
      [⟨"collapsible_if",
        ⟨0, false, "\x7b if b \x7b\x7d else \x7b if c \x7b\x7d \x7d \x7d"⟩,
        "this `else \x7b if .. \x7d` block can be collapsed",
        some ⟨.replaceSpan ⟨0, false, "\x7b if b \x7b\x7d else \x7b if c \x7b\x7d \x7d \x7d"⟩,
              "if b \x7b\x7d else \x7b if c \x7b\x7d \x7d", .MachineApplicable⟩⟩,
       ⟨"collapsible_if",
        ⟨0, false, "\x7b if c \x7b\x7d \x7d"⟩,
        "this `else \x7b if .. \x7d` block can be collapsed",
        some ⟨.replaceSpan ⟨0, false, "\x7b if c \x7b\x7d \x7d"⟩,
              "if c \x7b\x7d", .MachineApplicable⟩⟩] := by
  decide

/-- C10: both sub-cases also fire when the block's single statement is a
semicolon statement: `if x \x7b if y \x7b z(); \x7d; \x7d` triggers the
nested-if sub-case and
`if x \x7b a(); \x7d else \x7b if y \x7b b(); \x7d; \x7d` triggers the
else-block sub-case. -/
theorem semi_statement_matches_both_subcases :
    check_expr exOuterIfSemi =
      [⟨"collapsible_if", ⟨0, false, "if x \x7b if y \x7b z(); \x7d; \x7d"⟩,
        "this if statement can be collapsed",
        some ⟨.replaceSpan ⟨0, false, "if x \x7b if y \x7b z(); \x7d; \x7d"⟩,
              "if x && y \x7b z(); \x7d", .MachineApplicable⟩⟩] ∧
    check_expr exIfWithElseSemi =
      [⟨"collapsible_if", ⟨0, false, "\x7b if y \x7b b(); \x7d; \x7d"⟩,
        "this `else \x7b if .. \x7d` block can be collapsed",
        some ⟨.replaceSpan ⟨0, false, "\x7b if y \x7b b(); \x7d; \x7d"⟩,
              "if y \x7b b(); \x7d", .MachineApplicable⟩⟩] := by
  exact ⟨by decide, by decide⟩

/-- C1: for a reachable, zero-parameter, non-const, non-generic `new`
returning its enclosing type, with the type neither implementing nor
derivable for Default, the driver emits exactly one finding whose
suggestion is the full manual trait-implementation text placed after the
inherent impl block with applicability MaybeIncorrect. -/
theorem new_without_default_manual_impl (cx : Ctx) (selfTy retTy : Ty)
    (itemSpan sp : Span) (dtid : Nat)
    (hmac : sp.inMacro = false)
    (hty : same_tys selfTy retTy = true)
    (hres : cx.defaultTraitId = some dtid)
    (himpl : implements_trait cx selfTy dtid = false)
    (hder : can_derive_default selfTy cx dtid = none) :
    check_item cx (.implI none selfTy itemSpan
        [.method false sp "new" false false 0 retTy true]) =
      [⟨"new_without_default", sp,
        "you should consider adding a `Default` implementation for `"
          ++ selfTy.display ++ "`",
        some ⟨.insertAfter itemSpan,
              "impl Default for " ++ selfTy.display ++
                " \x7b\n    fn default() -> Self \x7b\n        Self::new()\n    \x7d\n\x7d",
              .MaybeIncorrect⟩⟩] := by
  simp [check_item, process_assoc_items, in_external_macro, hmac, new_candidate_findings,
        hty, get_trait_def_id, hres, himpl, hder, create_new_without_default_suggest_msg]

/-- Witness for C1: the struct Bar(NonDefaultType) with `fn new() ->
Self`, under an oracle implementing Default for no type, yields the
manual-impl finding. -/
theorem new_without_default_manual_impl_witness :
    check_item exCx (.implI none tyBar exImplSpan [exNewMethodBar]) =
      [⟨"new_without_default", exMethodSpan,
        "you should consider adding a `Default` implementation for `Bar`",
        some ⟨.insertAfter exImplSpan,
              "impl Default for Bar \x7b\n    fn default() -> Self \x7b\n        Self::new()\n    \x7d\n\x7d",
              .MaybeIncorrect⟩⟩] := by
  have h := new_without_default_manual_impl exCx tyBar tyBar exImplSpan exMethodSpan 7
    rfl (by decide) rfl rfl (by decide)
  exact h.trans (by decide)

/-- C9: an associated method named `new` with one or more declared value
parameters never yields a finding, even when it is reachable, non-const,
non-generic, outside macros and returns the enclosing type: the
candidate check requires the parameter list to be empty, and the loop
moves on to the remaining items. -/
theorem new_with_params_no_finding (cx : Ctx) (selfTy : Ty) (itemSpan sp : Span)
    (retTy : Ty) (n : Nat) (reachable : Bool) (rest : List AssocItem)
    (hmac : sp.inMacro = false) :
    process_assoc_items cx selfTy itemSpan
        (.method false sp "new" false false (n + 1) retTy reachable :: rest) =
      process_assoc_items cx selfTy itemSpan rest := by
  simp [process_assoc_items, in_external_macro, hmac]

/-- Witness for C9: a reachable `fn new(_: one parameter) -> Foo` alone
in an inherent impl produces no finding. -/
theorem new_with_params_no_finding_witness :
    process_assoc_items exCx tyFoo exImplSpan
        [.method false exMethodSpan "new" false false 1 tyFoo true] = [] := by
  have h := new_with_params_no_finding exCx tyFoo exImplSpan exMethodSpan tyFoo 0 true [] rfl
  exact h.trans rfl

/-- C2 (counterexample to the per-candidate-skip claim): the macro,
constness and generic checks execute `return`, aborting the whole
check_item call. An inherent impl containing a const method followed by
a valid `fn new() -> Self` candidate yields no finding at all, while the
same impl without the const method yields the expected finding. -/
theorem const_method_aborts_impl_scan :
    check_item exCx (.implI none tyFoo exImplSpan [exConstMethod, exNewMethod]) = [] ∧
    check_item exCx (.implI none tyFoo exImplSpan [exNewMethod]) =
      [⟨"new_without_default_derive", exMethodSpan,
        "you should consider deriving a `Default` implementation for `Foo`",
        some ⟨.insertBefore ⟨0, false, "struct Foo;"⟩, "#[derive(Default)]",
              .MaybeIncorrect⟩⟩] := by
  exact ⟨by decide, by decide⟩
